import Mathlib

/-!
Verification development for the Scanify scan-effect simulation pipeline
(`src/effects.py`, configuration in `src/config.py`).

Modelling conventions:
* A raster image is a structure `Img` holding its dimensions and a pixel
  function `ℕ → ℕ → Fin 3 → ℚ` (row, column, channel).  Channel values of a
  valid 8-bit raster lie in `[0, 255]`.
* Floating-point arithmetic of the source is idealised as exact rational
  arithmetic; the literal float constants (`0.01`, `0.08`, `0.85`, …) become
  the corresponding rationals.
* `numpy`'s `np.clip(v, lo, hi).astype(np.uint8)` is modelled by
  `clipFloor lo hi` (clamp, then floor to an integer).
* Python's `int()` (truncation toward zero) is modelled by `pyint`.
* The module is modelled in the configuration where the optional OpenCV
  backend failed to import (`HAS_OPENCV = False` in `src/effects.py`): the
  `cv2.*` branches are third-party code absent from the repository, and the
  fallback branches are the ones the specification's claims cite.
* External deterministic library routines that are not repository code
  (PIL's Lanczos/bilinear resampling and Gaussian blur, `np.sin`, `np.sqrt`)
  are passed in as explicit function parameters bundled in `MathEnv`; the
  random draws of `random.*` / `np.random.*` are passed in as explicit
  parameters bundled in per-stage records, so every theorem quantifies over
  all randomness outcomes.
-/

set_option maxRecDepth 4000
set_option linter.unusedVariables false

/-- Truncation toward zero, Python's `int()` applied to a float. -/
def pyint (q : ℚ) : ℤ :=
  if 0 ≤ q then ⌊q⌋ else -⌊-q⌋

/-- Clamp a value into `[lo, hi]` — `np.clip`. -/
def clip (lo hi q : ℚ) : ℚ := max lo (min hi q)

/-- Clamp into `[lo, hi]` and floor to an integer — models
`np.clip(v, lo, hi).astype(np.uint8)` (the clipped value is nonnegative in
every use, so truncation agrees with flooring). -/
def clipFloor (lo hi q : ℚ) : ℚ := ((⌊clip lo hi q⌋ : ℤ) : ℚ)

/-- Clamp to the 8-bit range and floor — `np.clip(v, 0, 255).astype(np.uint8)`. -/
def toU8 (q : ℚ) : ℚ := clipFloor 0 255 q

/-- A raster image: dimensions plus a pixel function (row, column, channel). -/
structure Img where
  width : ℕ
  height : ℕ
  px : ℕ → ℕ → Fin 3 → ℚ

/-- The effect configuration record (`EffectConfig` in `src/config.py`),
with the source's default values. -/
structure EffectConfig where
  dpi : ℕ := 72
  jpg_quality : ℕ := 50
  lighting : ℚ := 3/5
  tilt_randomness : ℚ := 1/5
  wrinkles : ℚ := 3/20
  shadows : ℚ := 1/20
  warp : ℚ := 3/10
  noise : ℚ := 1/2
  paper_texture : ℚ := 2/5
  page_edge : ℚ := 1/50
  yellowness : ℚ := 1/20
  black_and_white : Bool := false
  blank_metadata : Bool := true

/-- External deterministic library routines used by the pipeline that are not
part of the repository: trigonometric/square-root evaluation (`np.sin`,
`np.sqrt`), PIL's resampling filters and PIL's Gaussian blur.  They are
abstracted as function parameters; no claim depends on their values. -/
structure MathEnv where
  sinq : ℚ → ℚ
  sqrtq : ℚ → ℚ
  /-- The float constant `np.pi`. -/
  piq : ℚ
  /-- Lanczos resampling: source pixels, source dims, target dims ↦ target pixels. -/
  lanczos : (ℕ → ℕ → Fin 3 → ℚ) → ℕ → ℕ → ℕ → ℕ → (ℕ → ℕ → Fin 3 → ℚ)
  /-- Bilinear resampling of a single-channel buffer. -/
  bilinear : (ℕ → ℕ → ℚ) → ℕ → ℕ → ℕ → ℕ → (ℕ → ℕ → ℚ)
  /-- Gaussian blur of a single-channel buffer at a given radius. -/
  gaussianBlur : ℤ → (ℕ → ℕ → ℚ) → (ℕ → ℕ → ℚ)

/-- `Image.resize((w, h), …)` always returns an image of exactly the target
dimensions; pixel content comes from the abstracted resampling filter. -/
def resizeLanczos (env : MathEnv) (img : Img) (w h : ℕ) : Img :=
  { width := w, height := h,
    px := env.lanczos img.px img.width img.height w h }

/-- The fixed warm reference color of `apply_paper_color`
(`paper_tint = [248, 246, 238]`). -/
def paper_tint_color (c : Fin 3) : ℚ :=
  if c = 0 then 248 else if c = 1 then 246 else 238

/-- `apply_paper_color` (src/effects.py:15): blend every channel 85 % toward
the original and 15 % toward the fixed warm near-white reference, clip. -/
def apply_paper_color (img : Img) : Img :=
  { width := img.width, height := img.height,
    px := fun y x c =>
      toU8 (img.px y x c * (85/100) + paper_tint_color c * (15/100)) }

/-- The random draws of `apply_lighting`: the hot-spot position factors
`random.uniform(0.45, 0.55)` and `random.uniform(0.4, 0.6)`. -/
structure LightingRand where
  cx : ℚ
  cy : ℚ

/-- `apply_lighting` (src/effects.py:162): radial brightness gradient from a
randomized hot spot plus warm per-channel color-cast multipliers, clipped. -/
def apply_lighting (env : MathEnv) (r : LightingRand) (img : Img)
    (intensity : ℚ) : Img :=
  if intensity < 1/100 then img else
  let width := img.width
  let height := img.height
  let center_x : ℚ := (width : ℚ) * r.cx
  let center_y : ℚ := (height : ℚ) * r.cy
  let max_dist : ℚ := env.sqrtq ((width : ℚ) ^ 2 + (height : ℚ) ^ 2)
  { width := width, height := height,
    px := fun y x c =>
      let distances : ℚ :=
        env.sqrtq (((x : ℚ) - center_x) ^ 2 + ((y : ℚ) - center_y) ^ 2)
      let norm_dist : ℚ := distances / max_dist
      let lighting : ℚ :=
        1 + intensity * (25/100) * (1 - norm_dist) - intensity * (15/100)
      let cast : ℚ := if c = 0 then 102/100 else if c = 1 then 101/100 else 96/100
      toU8 (img.px y x c * lighting * cast) }

/-- The random draws of `apply_noise`: the standard Gaussian samples behind
`np.random.normal(0, intensity * 12, shape)` (scale applied in the body). -/
structure NoiseRand where
  z : ℕ → ℕ → Fin 3 → ℚ

/-- `apply_noise` (src/effects.py:368): add zero-mean Gaussian noise of
standard deviation `intensity * 12` per channel per pixel, clipped. -/
def apply_noise (r : NoiseRand) (img : Img) (intensity : ℚ) : Img :=
  if intensity < 1/100 then img else
  { width := img.width, height := img.height,
    px := fun y x c => toU8 (img.px y x c + r.z y x c * (intensity * 12)) }

theorem toU8_nonneg (q : ℚ) : 0 ≤ toU8 q := by
  unfold toU8 clipFloor clip
  have h : (0 : ℚ) ≤ max 0 (min 255 q) := le_max_left _ _
  have := Int.le_floor.mpr (by exact_mod_cast h : ((0 : ℤ) : ℚ) ≤ max 0 (min 255 q))
  exact_mod_cast this

theorem toU8_le (q : ℚ) : toU8 q ≤ 255 := by
  unfold toU8 clipFloor clip
  have h : max 0 (min 255 q) ≤ 255 := by
    apply max_le (by norm_num)
    exact min_le_left _ _
  calc ((⌊max 0 (min 255 q)⌋ : ℤ) : ℚ) ≤ max 0 (min 255 q) := Int.floor_le _
    _ ≤ 255 := h

theorem clipFloor_ge (lo hi q : ℚ) (h : 0 ≤ lo) : lo - 1 < clipFloor lo hi q := by
  unfold clipFloor clip
  have h1 : lo ≤ max lo (min hi q) := le_max_left _ _
  have h2 : (⌊max lo (min hi q)⌋ : ℚ) > max lo (min hi q) - 1 := by
    have := Int.sub_one_lt_floor (max lo (min hi q))
    exact_mod_cast this
  linarith

theorem clipFloor_le (lo hi q : ℚ) (h : lo ≤ hi) : clipFloor lo hi q ≤ hi := by
  unfold clipFloor clip
  have h1 : max lo (min hi q) ≤ hi := max_le h (min_le_left _ _)
  calc ((⌊max lo (min hi q)⌋ : ℤ) : ℚ) ≤ max lo (min hi q) := Int.floor_le _
    _ ≤ hi := h1

/-- The random draws of `apply_warp`: wave strength `uniform(15, 35)`,
frequencies `uniform(0.5, 1.2)` / `uniform(0.6, 1.0)`, phases
`uniform(0, 2π)`, vertical damping `uniform(0.4, 0.8)` and barrel coefficient
`uniform(0.0005, 0.0015)`. -/
structure WarpRand where
  wave : ℚ
  freq_h : ℚ
  freq_v : ℚ
  phase_h : ℚ
  phase_v : ℚ
  dy_scale : ℚ
  distortion_r : ℚ

/-- The displacement field of `apply_warp` (src/effects.py:210-232):
sinusoidal horizontal/vertical waves plus a barrel-distortion term. -/
def warpDisplacement (env : MathEnv) (r : WarpRand) (width height : ℕ)
    (intensity : ℚ) (y x : ℕ) : ℚ × ℚ :=
  let wave_intensity : ℚ := intensity * r.wave
  let dx0 : ℚ := wave_intensity *
    env.sinq (2 * env.piq * (y : ℚ) / ((height : ℚ) * r.freq_h) + r.phase_h)
  let dy0 : ℚ := wave_intensity *
    env.sinq (2 * env.piq * (x : ℚ) / ((width : ℚ) * r.freq_v) + r.phase_v) *
    r.dy_scale
  let center_x : ℚ := (width : ℚ) / 2
  let center_y : ℚ := (height : ℚ) / 2
  let distortion : ℚ := intensity * r.distortion_r
  (dx0 + ((x : ℚ) - center_x) * distortion,
   dy0 + ((y : ℚ) - center_y) * distortion)

/-- `apply_warp` (src/effects.py:202): builds the clamped displacement map;
with no resampling backend available (`HAS_OPENCV = False`) the fallback at
src/effects.py:241-243 returns the original image unchanged. -/
def apply_warp (env : MathEnv) (r : WarpRand) (img : Img)
    (intensity : ℚ) : Img :=
  if intensity < 1/100 then img else
  let width := img.width
  let height := img.height
  let new_x : ℕ → ℕ → ℚ := fun y x =>
    clip 0 ((width : ℚ) - 1)
      ((x : ℚ) + (warpDisplacement env r width height intensity y x).1)
  let new_y : ℕ → ℕ → ℚ := fun y x =>
    clip 0 ((height : ℚ) - 1)
      ((y : ℚ) + (warpDisplacement env r width height intensity y x).2)
  img

/-- PIL `convert('L')` luminance of a pixel: the ITU-R 601-2 luma transform
`L = R*299/1000 + G*587/1000 + B*114/1000`, truncated to an integer. -/
def grayPx (img : Img) (y x : ℕ) : ℤ :=
  pyint ((img.px y x 0 * 299 + img.px y x 1 * 587 + img.px y x 2 * 114) / 1000)

/-- The 256-level luminance histogram (`gray.histogram()`): for each level,
the number of pixels whose luminance equals it. -/
def histogram (img : Img) (i : ℕ) : ℕ :=
  ((List.range img.height).map (fun y =>
    ((List.range img.width).filter (fun x => grayPx img y x = (i : ℤ))).length)).sum

/-- Loop state of the Otsu threshold search in `apply_black_and_white`
(src/effects.py:130-155); `broke` records that the `break` fired. -/
structure OtsuState where
  current_max : ℚ
  threshold : ℕ
  sum_foreground : ℕ
  weight_background : ℕ
  broke : Bool

/-- One iteration of the Otsu threshold loop (src/effects.py:137-155). -/
def otsuStep (hist : ℕ → ℕ) (total sum_total : ℕ) (s : OtsuState)
    (i : ℕ) : OtsuState :=
  if s.broke then s else
  let weight_background := s.weight_background + hist i
  if weight_background = 0 then
    { s with weight_background := weight_background }
  else
  let weight_foreground := total - weight_background
  if weight_foreground = 0 then
    { s with weight_background := weight_background, broke := true }
  else
  let sum_foreground := s.sum_foreground + i * hist i
  let mean_background : ℚ := (sum_foreground : ℚ) / (weight_background : ℚ)
  let mean_foreground : ℚ :=
    ((sum_total : ℚ) - (sum_foreground : ℚ)) / (weight_foreground : ℚ)
  let between_variance : ℚ :=
    (weight_background : ℚ) * (weight_foreground : ℚ) *
      (mean_background - mean_foreground) ^ 2
  if s.current_max < between_variance then
    { current_max := between_variance, threshold := i,
      sum_foreground := sum_foreground,
      weight_background := weight_background, broke := false }
  else
    { s with sum_foreground := sum_foreground,
             weight_background := weight_background }

/-- The full 256-iteration Otsu scan, starting from
`current_max, threshold, sum_foreground, weight_background = 0`. -/
def otsuScan (hist : ℕ → ℕ) (total sum_total : ℕ) : OtsuState :=
  (List.range 256).foldl (otsuStep hist total sum_total)
    ⟨0, 0, 0, 0, false⟩

/-- `total = sum(hist)` of `apply_black_and_white` (src/effects.py:127). -/
def otsuTotal (img : Img) : ℕ := ((List.range 256).map (histogram img)).sum

/-- `sum_total = Σ i·hist[i]` of `apply_black_and_white`
(src/effects.py:134-135). -/
def otsuSumTotal (img : Img) : ℕ :=
  ((List.range 256).map (fun i => i * histogram img i)).sum

/-- The binarization threshold chosen by `apply_black_and_white` for an
image: `total = sum(hist)` and `sum_total = Σ i·hist[i]` feed the scan. -/
def otsuThreshold (img : Img) : ℕ :=
  (otsuScan (histogram img) (otsuTotal img) (otsuSumTotal img)).threshold

/-- `apply_black_and_white` (src/effects.py:102), fallback branch
(src/effects.py:124-159, `HAS_OPENCV = False`): grayscale, Otsu-style
threshold search, point thresholding (`255 if x > threshold else 0`),
re-expansion to three identical channels. -/
def apply_black_and_white (img : Img) : Img :=
  let threshold := otsuThreshold img
  { width := img.width, height := img.height,
    px := fun y x _ =>
      if (threshold : ℤ) < grayPx img y x then 255 else 0 }

/-- Cumulative class weight `Σ_{j ≤ i} hist j` (`weight_background` at the
end of iteration `i` of the Otsu loop). -/
def wB (hist : ℕ → ℕ) (i : ℕ) : ℕ := ((List.range (i+1)).map hist).sum

/-- Cumulative first moment `Σ_{j ≤ i} j·hist j` (`sum_foreground` at the
end of iteration `i`). -/
def sF (hist : ℕ → ℕ) (i : ℕ) : ℕ :=
  ((List.range (i+1)).map (fun j => j * hist j)).sum

/-- Between-class variance
`weightBackground · weightForeground · (meanBackground − meanForeground)²`
at candidate threshold `i`, taken as `0` when either class is empty.
Stated from the specification's words for comparison with the scan. -/
def betweenVar (hist : ℕ → ℕ) (total sum_total : ℕ) (i : ℕ) : ℚ :=
  let wb := wB hist i
  let wf := total - wb
  if wb = 0 ∨ wf = 0 then 0
  else (wb : ℚ) * (wf : ℚ) *
    ((sF hist i : ℚ) / (wb : ℚ) -
      ((sum_total : ℚ) - (sF hist i : ℚ)) / (wf : ℚ)) ^ 2

/-- Prefix class weight `Σ_{j < n} hist j` (half-open variant of `wB`). -/
def otsuWBp (hist : ℕ → ℕ) (n : ℕ) : ℕ := ((List.range n).map hist).sum

/-- Prefix first moment `Σ_{j < n} j·hist j` (half-open variant of `sF`). -/
def otsuSFp (hist : ℕ → ℕ) (n : ℕ) : ℕ :=
  ((List.range n).map (fun j => j * hist j)).sum

theorem otsuWBp_succ (hist : ℕ → ℕ) (n : ℕ) :
    otsuWBp hist (n+1) = otsuWBp hist n + hist n := by
  simp [otsuWBp, List.range_succ]

theorem otsuSFp_succ (hist : ℕ → ℕ) (n : ℕ) :
    otsuSFp hist (n+1) = otsuSFp hist n + n * hist n := by
  simp [otsuSFp, List.range_succ]

theorem wB_eq_otsuWBp (hist : ℕ → ℕ) (i : ℕ) : wB hist i = otsuWBp hist (i+1) := rfl

theorem sF_eq_otsuSFp (hist : ℕ → ℕ) (i : ℕ) : sF hist i = otsuSFp hist (i+1) := rfl

theorem otsuWBp_mono (hist : ℕ → ℕ) {n m : ℕ} (h : n ≤ m) :
    otsuWBp hist n ≤ otsuWBp hist m := by
  induction m with
  | zero => simp [Nat.le_zero.mp h]
  | succ k ih =>
    rcases Nat.lt_or_ge n (k+1) with h1 | h2
    · have := ih (Nat.lt_succ_iff.mp h1)
      rw [otsuWBp_succ]; omega
    · have hnk : n = k + 1 := le_antisymm h h2
      simp [hnk]

theorem betweenVar_nonneg (hist : ℕ → ℕ) (total sum_total i : ℕ) :
    0 ≤ betweenVar hist total sum_total i := by
  unfold betweenVar
  dsimp only
  split
  · exact le_refl 0
  · positivity

theorem betweenVar_of_wB_zero (hist : ℕ → ℕ) (total sum_total i : ℕ)
    (h : wB hist i = 0) : betweenVar hist total sum_total i = 0 := by
  unfold betweenVar
  simp [h]

theorem betweenVar_of_wf_zero (hist : ℕ → ℕ) (total sum_total i : ℕ)
    (h : total - wB hist i = 0) : betweenVar hist total sum_total i = 0 := by
  unfold betweenVar
  simp [h]

/-- Loop invariant of the Otsu threshold search after `n` iterations. -/
def OtsuInv (hist : ℕ → ℕ) (total sum_total n : ℕ) (s : OtsuState) : Prop :=
  (s.broke = false →
    s.weight_background = otsuWBp hist n ∧ s.sum_foreground = otsuSFp hist n)
  ∧ (s.broke = true → otsuWBp hist n = total)
  ∧ (∀ i, i < n → betweenVar hist total sum_total i ≤ s.current_max)
  ∧ (s.current_max = 0 ∨
     s.current_max = betweenVar hist total sum_total s.threshold)

theorem OtsuInv.current_max_nonneg {hist : ℕ → ℕ} {total sum_total n : ℕ}
    {s : OtsuState} (h : OtsuInv hist total sum_total n s) :
    0 ≤ s.current_max := by
  rcases h.2.2.2 with h0 | h0
  · rw [h0]
  · rw [h0]; exact betweenVar_nonneg _ _ _ _

theorem otsuStep_inv (hist : ℕ → ℕ) (total sum_total n : ℕ) (s : OtsuState)
    (htotal : total = otsuWBp hist 256) (hn : n < 256)
    (h : OtsuInv hist total sum_total n s) :
    OtsuInv hist total sum_total (n+1) (otsuStep hist total sum_total s n) := by
  obtain ⟨hlive, hbroke, hmax, hdisj⟩ := h
  have hcmnn : 0 ≤ s.current_max :=
    OtsuInv.current_max_nonneg ⟨hlive, hbroke, hmax, hdisj⟩
  have hwbn1 : otsuWBp hist (n+1) ≤ total := by
    rw [htotal]; exact otsuWBp_mono hist (by omega)
  by_cases hb : s.broke = true
  · -- the break already fired: the state is frozen
    have hstep : otsuStep hist total sum_total s n = s := by
      unfold otsuStep; simp [hb]
    rw [hstep]
    have htot : otsuWBp hist (n+1) = total := by
      have h1 := hbroke hb
      have h2 : otsuWBp hist n ≤ otsuWBp hist (n+1) := otsuWBp_mono hist (by omega)
      omega
    refine ⟨fun hf => absurd hb (by simp [hf]), fun _ => htot, ?_, hdisj⟩
    intro i hi
    rcases Nat.lt_or_ge i n with h1 | h2
    · exact hmax i h1
    · have hin : i = n := by omega
      have hz : betweenVar hist total sum_total i = 0 := by
        apply betweenVar_of_wf_zero
        rw [wB_eq_otsuWBp, hin, htot]
        omega
      rw [hz]; exact hcmnn
  · have hb' : s.broke = false := by simp at hb; exact hb
    obtain ⟨hwb, hsf⟩ := hlive hb'
    have hwb1 : s.weight_background + hist n = otsuWBp hist (n+1) := by
      rw [otsuWBp_succ, hwb]
    have hsf1 : s.sum_foreground + n * hist n = otsuSFp hist (n+1) := by
      rw [otsuSFp_succ, hsf]
    by_cases h0 : s.weight_background + hist n = 0
    · -- `weight_background == 0`: the loop continues without computing
      have hstep : otsuStep hist total sum_total s n =
          { s with weight_background := s.weight_background + hist n } := by
        unfold otsuStep; simp only [hb', Bool.false_eq_true, if_false, h0, if_true]
      rw [hstep]
      have hh0 : hist n = 0 := by omega
      refine ⟨?_, ?_, ?_, ?_⟩
      · intro _
        constructor
        · show s.weight_background + hist n = otsuWBp hist (n+1)
          exact hwb1
        · show s.sum_foreground = otsuSFp hist (n+1)
          rw [← hsf1, hh0]; omega
      · intro hf
        exact absurd (show s.broke = true from hf) (by simp [hb'])
      · intro i hi
        show betweenVar hist total sum_total i ≤ s.current_max
        rcases Nat.lt_or_ge i n with h1 | h2
        · exact hmax i h1
        · have hin : i = n := by omega
          have hz : betweenVar hist total sum_total i = 0 := by
            apply betweenVar_of_wB_zero
            rw [wB_eq_otsuWBp, hin, ← hwb1, h0]
          rw [hz]; exact hcmnn
      · show s.current_max = 0 ∨
          s.current_max = betweenVar hist total sum_total s.threshold
        exact hdisj
    · by_cases hf0 : total - (s.weight_background + hist n) = 0
      · -- `weight_foreground == 0`: the loop breaks
        have hstep : otsuStep hist total sum_total s n =
            { s with weight_background := s.weight_background + hist n,
                     broke := true } := by
          unfold otsuStep
          simp only [hb', Bool.false_eq_true, if_false, h0, hf0, if_true]
        rw [hstep]
        have htot : otsuWBp hist (n+1) = total := by
          rw [← hwb1]; omega
        refine ⟨?_, ?_, ?_, ?_⟩
        · intro hf
          exact absurd (show (true : Bool) = false from hf) (by simp)
        · intro _
          exact htot
        · intro i hi
          show betweenVar hist total sum_total i ≤ s.current_max
          rcases Nat.lt_or_ge i n with h1 | h2
          · exact hmax i h1
          · have hin : i = n := by omega
            have hz : betweenVar hist total sum_total i = 0 := by
              apply betweenVar_of_wf_zero
              rw [wB_eq_otsuWBp, hin, htot]
              omega
            rw [hz]; exact hcmnn
        · show s.current_max = 0 ∨
            s.current_max = betweenVar hist total sum_total s.threshold
          exact hdisj
      · -- both classes nonempty: the variance is computed at candidate `n`
        have hbvn : betweenVar hist total sum_total n =
            ((s.weight_background + hist n : ℕ) : ℚ) *
              ((total - (s.weight_background + hist n) : ℕ) : ℚ) *
              (((s.sum_foreground + n * hist n : ℕ) : ℚ) /
                  ((s.weight_background + hist n : ℕ) : ℚ) -
                ((sum_total : ℚ) - ((s.sum_foreground + n * hist n : ℕ) : ℚ)) /
                  ((total - (s.weight_background + hist n) : ℕ) : ℚ)) ^ 2 := by
          unfold betweenVar
          dsimp only
          rw [wB_eq_otsuWBp, sF_eq_otsuSFp, ← hwb1, ← hsf1]
          simp [h0, hf0]
        by_cases hcm : s.current_max <
            ((s.weight_background + hist n : ℕ) : ℚ) *
              ((total - (s.weight_background + hist n) : ℕ) : ℚ) *
              (((s.sum_foreground + n * hist n : ℕ) : ℚ) /
                  ((s.weight_background + hist n : ℕ) : ℚ) -
                ((sum_total : ℚ) - ((s.sum_foreground + n * hist n : ℕ) : ℚ)) /
                  ((total - (s.weight_background + hist n) : ℕ) : ℚ)) ^ 2
        · -- a new maximum: the threshold moves to `n`
          have hstep : otsuStep hist total sum_total s n =
              { current_max := ((s.weight_background + hist n : ℕ) : ℚ) *
                  ((total - (s.weight_background + hist n) : ℕ) : ℚ) *
                  (((s.sum_foreground + n * hist n : ℕ) : ℚ) /
                      ((s.weight_background + hist n : ℕ) : ℚ) -
                    ((sum_total : ℚ) - ((s.sum_foreground + n * hist n : ℕ) : ℚ)) /
                      ((total - (s.weight_background + hist n) : ℕ) : ℚ)) ^ 2,
                threshold := n,
                sum_foreground := s.sum_foreground + n * hist n,
                weight_background := s.weight_background + hist n,
                broke := false } := by
            unfold otsuStep
            simp only [hb', Bool.false_eq_true, if_false, h0, hf0, if_true]
            rw [if_pos hcm]
          rw [hstep]
          refine ⟨?_, ?_, ?_, ?_⟩
          · intro _
            exact ⟨hwb1, hsf1⟩
          · intro hf
            exact absurd (show (false : Bool) = true from hf) (by simp)
          · intro i hi
            show betweenVar hist total sum_total i ≤ _
            rcases Nat.lt_or_ge i n with h1 | h2
            · exact le_trans (hmax i h1) (le_of_lt hcm)
            · have hin : i = n := by omega
              rw [hin, hbvn]
          · right
            show _ = betweenVar hist total sum_total n
            exact hbvn.symm
        · -- not a new maximum: threshold and maximum stay put
          have hstep : otsuStep hist total sum_total s n =
              { s with sum_foreground := s.sum_foreground + n * hist n,
                       weight_background := s.weight_background + hist n } := by
            unfold otsuStep
            simp only [hb', Bool.false_eq_true, if_false, h0, hf0, if_true]
            rw [if_neg hcm]
          rw [hstep]
          refine ⟨?_, ?_, ?_, ?_⟩
          · intro _
            exact ⟨hwb1, hsf1⟩
          · intro hf
            exact absurd (show s.broke = true from hf) (by simp [hb'])
          · intro i hi
            show betweenVar hist total sum_total i ≤ s.current_max
            rcases Nat.lt_or_ge i n with h1 | h2
            · exact hmax i h1
            · have hin : i = n := by omega
              rw [hin, hbvn]
              exact le_of_not_lt hcm
          · show s.current_max = 0 ∨
              s.current_max = betweenVar hist total sum_total s.threshold
            exact hdisj

theorem otsuScan_inv (hist : ℕ → ℕ) (total sum_total : ℕ)
    (htotal : total = otsuWBp hist 256) :
    OtsuInv hist total sum_total 256 (otsuScan hist total sum_total) := by
  have key : ∀ n, n ≤ 256 → OtsuInv hist total sum_total n
      ((List.range n).foldl (otsuStep hist total sum_total) ⟨0, 0, 0, 0, false⟩) := by
    intro n
    induction n with
    | zero =>
      intro _
      refine ⟨fun _ => ⟨rfl, rfl⟩, ?_, ?_, Or.inl rfl⟩
      · intro hf
        exact absurd (show (false : Bool) = true from hf) (by simp)
      · intro i hi
        omega
    | succ k ih =>
      intro hk
      rw [List.range_succ, List.foldl_append, List.foldl_cons, List.foldl_nil]
      exact otsuStep_inv hist total sum_total k _ htotal (by omega) (ih (by omega))
  exact key 256 le_rfl

theorem otsuScan_argmax (hist : ℕ → ℕ) (total sum_total : ℕ)
    (htotal : total = otsuWBp hist 256) (i : ℕ) (hi : i < 256) :
    betweenVar hist total sum_total i ≤
      betweenVar hist total sum_total (otsuScan hist total sum_total).threshold := by
  obtain ⟨-, -, hmax, hdisj⟩ := otsuScan_inv hist total sum_total htotal
  rcases hdisj with h0 | h0
  · calc betweenVar hist total sum_total i
        ≤ (otsuScan hist total sum_total).current_max := hmax i hi
      _ = 0 := h0
      _ ≤ _ := betweenVar_nonneg _ _ _ _
  · calc betweenVar hist total sum_total i
        ≤ (otsuScan hist total sum_total).current_max := hmax i hi
      _ = _ := h0

/-- Pointwise multiplicative update of a single-channel mask
(`layer[y, x] *= f`). -/
def maskMulAt (m : ℕ → ℕ → ℚ) (y x : ℕ) (f : ℚ) : ℕ → ℕ → ℚ :=
  fun y' x' => if y' = y ∧ x' = x then m y' x' * f else m y' x'

/-- Whole-row multiplicative update (`layer[y, :] *= f`). -/
def rowMul (m : ℕ → ℕ → ℚ) (y : ℕ) (f : ℚ) : ℕ → ℕ → ℚ :=
  fun y' x' => if y' = y then m y' x' * f else m y' x'

/-- Whole-column multiplicative update (`layer[:, x] *= f`). -/
def colMul (m : ℕ → ℕ → ℚ) (x : ℕ) (f : ℚ) : ℕ → ℕ → ℚ :=
  fun y' x' => if x' = x then m y' x' * f else m y' x'

/-- The random draws of `apply_wrinkles`, indexed by wrinkle number:
orientation (`random.random() > 0.5`), crease position (`randint`), amplitude
`uniform(2, 6)`, spatial frequency `uniform(0.003, 0.015)`, darkening
strength `uniform(0.15, 0.3)`, and a fresh phase `uniform(0, 2π)` per
position along the crease. -/
structure WrinkleRand where
  orient : ℕ → Bool
  posH : ℕ → ℕ
  posV : ℕ → ℕ
  amp : ℕ → ℚ
  freq : ℕ → ℚ
  strength : ℕ → ℚ
  phase : ℕ → ℕ → ℚ

/-- The window of neighbour offsets `range(-3, 4)` of the wrinkle fade. -/
def wrinkleDyList : List ℤ := [-3, -2, -1, 0, 1, 2, 3]

/-- One column update of a horizontal wrinkle (src/effects.py:268-277):
sinusoidal offset, clamped position, strong darkening at the crease pixel
and a linear fade over `±3` neighbours. -/
def horizWrinkleCol (env : MathEnv) (height : ℕ) (y : ℕ)
    (amplitude frequency ws : ℚ) (phase : ℕ → ℚ)
    (m : ℕ → ℕ → ℚ) (x : ℕ) : ℕ → ℕ → ℚ :=
  let offset : ℤ := pyint (amplitude * env.sinq (frequency * (x : ℚ) + phase x))
  let y_pos : ℕ := (min (max ((y : ℤ) + offset) 0) ((height : ℤ) - 1)).toNat
  let m1 := maskMulAt m y_pos x (1 - ws)
  wrinkleDyList.foldl (fun mm dy =>
    if 0 ≤ (y_pos : ℤ) + dy ∧ (y_pos : ℤ) + dy < (height : ℤ) then
      maskMulAt mm ((y_pos : ℤ) + dy).toNat x
        (1 - ws * (1 - ((|dy| : ℤ) : ℚ) / 4) * (1/2))
    else mm) m1

/-- One row update of a vertical wrinkle (src/effects.py:285-292). -/
def vertWrinkleRow (env : MathEnv) (width : ℕ) (x : ℕ)
    (amplitude frequency ws : ℚ) (phase : ℕ → ℚ)
    (m : ℕ → ℕ → ℚ) (y : ℕ) : ℕ → ℕ → ℚ :=
  let offset : ℤ := pyint (amplitude * env.sinq (frequency * (y : ℚ) + phase y))
  let x_pos : ℕ := (min (max ((x : ℤ) + offset) 0) ((width : ℤ) - 1)).toNat
  let m1 := maskMulAt m y x_pos (1 - ws)
  wrinkleDyList.foldl (fun mm dx =>
    if 0 ≤ (x_pos : ℤ) + dx ∧ (x_pos : ℤ) + dx < (width : ℤ) then
      maskMulAt mm y ((x_pos : ℤ) + dx).toNat
        (1 - ws * (1 - ((|dx| : ℤ) : ℚ) / 4) * (1/2))
    else mm) m1

/-- One randomized crease of `apply_wrinkles` (src/effects.py:259-292). -/
def applyOneWrinkle (env : MathEnv) (r : WrinkleRand) (width height : ℕ)
    (intensity : ℚ) (m : ℕ → ℕ → ℚ) (w : ℕ) : ℕ → ℕ → ℚ :=
  if r.orient w then
    let y := r.posH w
    let amplitude := r.amp w * intensity
    let frequency := r.freq w
    let wrinkle_strength := intensity * r.strength w
    (List.range width).foldl
      (horizWrinkleCol env height y amplitude frequency wrinkle_strength (r.phase w)) m
  else
    let x := r.posV w
    let amplitude := r.amp w * intensity
    let frequency := r.freq w
    let wrinkle_strength := intensity * r.strength w
    (List.range height).foldl
      (vertWrinkleRow env width x amplitude frequency wrinkle_strength (r.phase w)) m

/-- `apply_wrinkles` (src/effects.py:246): `max(8, intensity·30)` randomized
creases darken a multiplicative shading mask, which is applied to all
channels and clipped (the `cv2`-only mask smoothing is skipped,
`HAS_OPENCV = False`). -/
def apply_wrinkles (env : MathEnv) (r : WrinkleRand) (img : Img)
    (intensity : ℚ) : Img :=
  if intensity < 1/100 then img else
  let width := img.width
  let height := img.height
  let num_wrinkles : ℕ := (max 8 (pyint (intensity * 30))).toNat
  let wrinkle_layer := (List.range num_wrinkles).foldl
    (applyOneWrinkle env r width height intensity) (fun _ _ => 1)
  { width := width, height := height,
    px := fun y x c => toU8 (img.px y x c * wrinkle_layer y x) }

/-- `apply_shadows` (src/effects.py:307): multiplicative vignette mask —
linear edge bands (top/bottom weighted ×0.7, left/right ×0.8) plus radial
corner darkening at 1.5× strength, applied to all channels and clipped
(the `cv2`-only mask blur is skipped, `HAS_OPENCV = False`). -/
def apply_shadows (env : MathEnv) (img : Img) (intensity tilt : ℚ) : Img :=
  if intensity < 1/100 then img else
  let width := img.width
  let height := img.height
  let shadow_strength := intensity * (3/10)
  let edge_size_tb : ℕ := (pyint ((height : ℚ) * (15/100))).toNat
  let s1 := (List.range edge_size_tb).foldl (fun (m : ℕ → ℕ → ℚ) (y : ℕ) =>
    let fade := ((edge_size_tb : ℚ) - (y : ℚ)) / (edge_size_tb : ℚ)
    let m' := rowMul m y (1 - fade * shadow_strength * (7/10))
    rowMul m' (height - 1 - y) (1 - fade * shadow_strength * (7/10)))
    (fun _ _ => 1)
  let edge_size_lr : ℕ := (pyint ((width : ℚ) * (12/100))).toNat
  let s2 := (List.range edge_size_lr).foldl (fun (m : ℕ → ℕ → ℚ) (x : ℕ) =>
    let fade := ((edge_size_lr : ℚ) - (x : ℚ)) / (edge_size_lr : ℚ)
    let m' := colMul m x (1 - fade * shadow_strength * (8/10))
    colMul m' (width - 1 - x) (1 - fade * shadow_strength * (8/10))) s1
  let corner_size : ℕ := min width height / 6
  let corner_shadow_strength := shadow_strength * (3/2)
  let s3 := (List.range corner_size).foldl (fun (m : ℕ → ℕ → ℚ) (y : ℕ) =>
    (List.range corner_size).foldl (fun (mm : ℕ → ℕ → ℚ) (x : ℕ) =>
      let dist := env.sqrtq
        (((x : ℚ) / (corner_size : ℚ)) ^ 2 + ((y : ℚ) / (corner_size : ℚ)) ^ 2)
      if dist < 1 then
        let fade := (1 - dist) * corner_shadow_strength
        let m1 := maskMulAt mm y x (1 - fade)
        let m2 := maskMulAt m1 y (width - 1 - x) (1 - fade)
        let m3 := maskMulAt m2 (height - 1 - y) x (1 - fade)
        maskMulAt m3 (height - 1 - y) (width - 1 - x) (1 - fade)
      else mm) m) s2
  { width := width, height := height,
    px := fun y x c => toU8 (img.px y x c * s3 y x) }

/-- The random draws of `apply_paper_texture`: the standard Gaussian samples
behind `np.random.normal(0, intensity * 15, half_res_shape)`. -/
structure TexRand where
  z : ℕ → ℕ → ℚ

/-- `apply_paper_texture` (src/effects.py:386): half-resolution Gaussian
grain around gray 128, bilinear upsampling (abstracted PIL filter),
re-centering, additive application scaled by `intensity × 1.5`, clipped. -/
def apply_paper_texture (env : MathEnv) (r : TexRand) (img : Img)
    (intensity : ℚ) : Img :=
  if intensity < 1/100 then img else
  let width := img.width
  let height := img.height
  let grain_width := width / 2
  let grain_height := height / 2
  let grain : ℕ → ℕ → ℚ := fun y x => r.z y x * (intensity * 15)
  let grain_array : ℕ → ℕ → ℚ := fun y x => toU8 (128 + grain y x)
  let grain_up := env.bilinear grain_array grain_width grain_height width height
  let grain2 : ℕ → ℕ → ℚ := fun y x => grain_up y x - 128
  { width := width, height := height,
    px := fun y x c => toU8 (img.px y x c + grain2 y x * intensity * (3/2)) }

/-- The random draws of `apply_page_edge`: the border-variation factor
`uniform(0.3, 0.8)`; the four `randint(-variation, variation)` border
perturbations, modelled as functions of their (lo, hi) bounds; the bed base
gray `randint(140, 170)` and per-channel jitter `randint(-8, 8)`; the bed
noise standard-normal samples (`np.random.normal(0, 4, …)`, scale applied in
the body); the streak list (`3–8` entries of position and `uniform(2, 6)`
darkening) and the dust-spot list (`10–25` entries of position, size
`randint(1, 2)` and change `uniform(-8, -3)`). -/
structure EdgeRand where
  variation : ℚ
  rtop : ℤ → ℤ → ℤ
  rbottom : ℤ → ℤ → ℤ
  rleft : ℤ → ℤ → ℤ
  rright : ℤ → ℤ → ℤ
  base_gray : ℤ
  jitter : Fin 3 → ℤ
  bedNoise : ℕ → ℕ → Fin 3 → ℚ
  streaks : List (ℕ × ℚ)
  spots : List (ℕ × ℕ × ℕ × ℚ)

/-- The base border width of `apply_page_edge` (src/effects.py:423):
`int(min(width, height) * 0.08 * intensity)`. -/
def pageEdgeBorderBase (width height : ℕ) (intensity : ℚ) : ℤ :=
  pyint ((min width height : ℚ) * (8/100) * intensity)

/-- The four jittered border widths of `apply_page_edge`
(src/effects.py:428-438), each floored at 5. -/
def pageEdgeBorders (r : EdgeRand) (width height : ℕ)
    (intensity tilt : ℚ) : ℤ × ℤ × ℤ × ℤ :=
  let border_base := pageEdgeBorderBase width height intensity
  let border_variation := pyint ((border_base : ℚ) * tilt * r.variation)
  (max 5 (border_base + r.rtop (-border_variation) border_variation),
   max 5 (border_base + r.rbottom (-border_variation) border_variation),
   max 5 (border_base + r.rleft (-border_variation) border_variation),
   max 5 (border_base + r.rright (-border_variation) border_variation))

/-- Membership on the 1-pixel outline of the `i`-th drop-shadow rectangle
(`draw.rectangle(…, outline=…)`, src/effects.py:530-537). -/
def onShadowRing (bl bt width height : ℕ) (i : ℕ) (y x : ℕ) : Prop :=
  let x0 : ℤ := (bl : ℤ) + 3 - (i : ℤ)
  let y0 : ℤ := (bt : ℤ) + 3 - (i : ℤ)
  let x1 : ℤ := (bl : ℤ) + (width : ℤ) + 3 + (i : ℤ)
  let y1 : ℤ := (bt : ℤ) + (height : ℤ) + 3 + (i : ℤ)
  (((x : ℤ) = x0 ∨ (x : ℤ) = x1) ∧ y0 ≤ (y : ℤ) ∧ (y : ℤ) ≤ y1) ∨
  (((y : ℤ) = y0 ∨ (y : ℤ) = y1) ∧ x0 ≤ (x : ℤ) ∧ (x : ℤ) ≤ x1)

instance (bl bt width height i y x : ℕ) :
    Decidable (onShadowRing bl bt width height i y x) := by
  unfold onShadowRing
  exact inferInstance

/-- `apply_page_edge` (src/effects.py:415): synthesize a scanner-bed canvas
larger than the page by four jittered borders (each ≥ 5), with border-only
gradient darkening, bed noise, streaks and dust spots, all kept in
`[100, 255]`; paste the page at the border offset and composite a blurred
multi-ring drop shadow.  Returns the input unchanged when the intensity is
below epsilon or the base border computes below 5. -/
def apply_page_edge (env : MathEnv) (r : EdgeRand) (img : Img)
    (intensity tilt : ℚ) : Img :=
  if intensity < 1/100 then img else
  let width := img.width
  let height := img.height
  let border_base := pageEdgeBorderBase width height intensity
  if border_base < 5 then img else
  let borders := pageEdgeBorders r width height intensity tilt
  let bt : ℕ := borders.1.toNat
  let bb : ℕ := borders.2.1.toNat
  let bl : ℕ := borders.2.2.1.toNat
  let br : ℕ := borders.2.2.2.toNat
  let new_width := width + bl + br
  let new_height := height + bt + bb
  let bg0 : ℕ → ℕ → Fin 3 → ℚ := fun y x c => ((r.base_gray + r.jitter c : ℤ) : ℚ)
  let in_border : ℕ → ℕ → Prop := fun y x =>
    x < bl ∨ bl + width ≤ x ∨ y < bt ∨ bt + height ≤ y
  let bg1 : ℕ → ℕ → Fin 3 → ℚ := fun y x c =>
    if x < bl ∨ bl + width ≤ x ∨ y < bt ∨ bt + height ≤ y then
      let dist_x : ℤ := min (((x : ℤ) - (bl : ℤ)).natAbs)
        (((x : ℤ) - ((bl : ℤ) + (width : ℤ))).natAbs)
      let dist_y : ℤ := min (((y : ℤ) - (bt : ℤ)).natAbs)
        (((y : ℤ) - ((bt : ℤ) + (height : ℤ))).natAbs)
      let edge_dist : ℤ := min dist_x dist_y
      let darkening : ℤ := pyint ((edge_dist : ℚ) * (15/100))
      clip 100 255 (bg0 y x c - (darkening : ℚ))
    else bg0 y x c
  let bg2 : ℕ → ℕ → Fin 3 → ℚ := fun y x c => bg1 y x c + r.bedNoise y x c * 4
  let bg3 := r.streaks.foldl (fun (m : ℕ → ℕ → Fin 3 → ℚ) (p : ℕ × ℚ) =>
    fun y x c =>
      if p.1 - 1 ≤ x ∧ x < min new_width (p.1 + 1) then m y x c - p.2
      else m y x c) bg2
  let bg4 := r.spots.foldl (fun (m : ℕ → ℕ → Fin 3 → ℚ) (p : ℕ × ℕ × ℕ × ℚ) =>
    fun y x c =>
      if p.2.1 - p.2.2.1 ≤ y ∧ y < min new_height (p.2.1 + p.2.2.1) ∧
         p.1 - p.2.2.1 ≤ x ∧ x < min new_width (p.1 + p.2.2.1) then
        clip 100 255 (m y x c + p.2.2.2)
      else m y x c) bg3
  let bgFinal : ℕ → ℕ → Fin 3 → ℚ := fun y x c => clipFloor 100 255 (bg4 y x c)
  let pasted : ℕ → ℕ → Fin 3 → ℚ := fun y x c =>
    if bl ≤ x ∧ x < bl + width ∧ bt ≤ y ∧ y < bt + height then
      img.px (y - bt) (x - bl) c
    else bgFinal y x c
  let avg_border : ℕ := (bt + bb + bl + br) / 4
  let shadow_blur : ℤ := pyint ((avg_border : ℚ) * (4/10))
  let alphaRaw := (List.range 10).foldl (fun (a : ℕ → ℕ → ℚ) (i : ℕ) =>
    fun y x =>
      if onShadowRing bl bt width height i y x then
        ((pyint ((30 * ((10 : ℚ) - (i : ℚ))) / 10) : ℤ) : ℚ)
      else a y x) (fun _ _ => 0)
  let alpha := env.gaussianBlur shadow_blur alphaRaw
  { width := new_width, height := new_height,
    px := fun y x c => toU8 (pasted y x c * (1 - alpha y x / 255)) }

/-- All random draws of one pipeline invocation, stage by stage. -/
structure PipelineRand where
  warp : WarpRand
  lighting : LightingRand
  wrinkles : WrinkleRand
  tex : TexRand
  edge : EdgeRand
  noise : NoiseRand

/-- The tone-and-effect-stage chain of `apply_scan_effects`
(src/effects.py:57-91): the body of the orchestrator between the optional
downscale and the optional upscale, exactly in source order. -/
def applyStages (env : MathEnv) (r : PipelineRand) (config : EffectConfig)
    (image1 : Img) : Img :=
  let image2 :=
    if config.black_and_white = false then apply_paper_color image1 else image1
  let image3 :=
    if config.black_and_white then apply_black_and_white image2 else image2
  let image4 :=
    if 1/100 < config.warp then apply_warp env r.warp image3 config.warp
    else image3
  let image5 :=
    if 1/100 < config.lighting then
      apply_lighting env r.lighting image4 config.lighting
    else image4
  let image6 :=
    if 1/100 < config.wrinkles then
      apply_wrinkles env r.wrinkles image5 config.wrinkles
    else image5
  let image7 :=
    if 1/100 < config.paper_texture then
      apply_paper_texture env r.tex image6 config.paper_texture
    else image6
  let image8 :=
    if 1/100 < config.shadows then
      apply_shadows env image7 config.shadows config.tilt_randomness
    else image7
  let image9 :=
    if 1/100 < config.page_edge then
      apply_page_edge env r.edge image8 config.page_edge config.tilt_randomness
    else image8
  if 1/100 < config.noise then apply_noise r.noise image9 config.noise
  else image9

/-- `apply_scan_effects` (src/effects.py:29): the pipeline orchestrator —
optional downscale to the 2200-unit cap, the stage chain `applyStages`,
optional upscale back to the pre-cap dimensions. -/
def apply_scan_effects (env : MathEnv) (r : PipelineRand) (img : Img)
    (config : EffectConfig) : Img :=
  let width := img.width
  let height := img.height
  let max_dim : ℕ := 2200
  let scale_factor : ℚ :=
    if max_dim < max width height then
      (max_dim : ℚ) / (((max width height : ℕ)) : ℚ)
    else 1
  let width1 : ℕ :=
    if max_dim < max width height then (pyint ((width : ℚ) * scale_factor)).toNat
    else width
  let height1 : ℕ :=
    if max_dim < max width height then (pyint ((height : ℚ) * scale_factor)).toNat
    else height
  let image1 :=
    if max_dim < max width height then resizeLanczos env img width1 height1
    else img
  let image10 := applyStages env r config image1
  if scale_factor ≠ 1 then
    resizeLanczos env image10 ((pyint ((width1 : ℚ) / scale_factor)).toNat)
      ((pyint ((height1 : ℚ) / scale_factor)).toNat)
  else image10

theorem apply_warp_eq (env : MathEnv) (rwp : WarpRand) (img : Img)
    (intensity : ℚ) : apply_warp env rwp img intensity = img := by
  unfold apply_warp
  split <;> rfl

theorem apply_lighting_ident (env : MathEnv) (rl : LightingRand) (img : Img)
    {intensity : ℚ} (h : intensity < 1/100) :
    apply_lighting env rl img intensity = img := by
  unfold apply_lighting
  rw [if_pos h]

theorem apply_wrinkles_ident (env : MathEnv) (rwr : WrinkleRand) (img : Img)
    {intensity : ℚ} (h : intensity < 1/100) :
    apply_wrinkles env rwr img intensity = img := by
  unfold apply_wrinkles
  rw [if_pos h]

theorem apply_paper_texture_ident (env : MathEnv) (rt : TexRand) (img : Img)
    {intensity : ℚ} (h : intensity < 1/100) :
    apply_paper_texture env rt img intensity = img := by
  unfold apply_paper_texture
  rw [if_pos h]

theorem apply_shadows_ident (env : MathEnv) (img : Img) {intensity : ℚ}
    (tilt : ℚ) (h : intensity < 1/100) :
    apply_shadows env img intensity tilt = img := by
  unfold apply_shadows
  rw [if_pos h]

theorem apply_page_edge_ident (env : MathEnv) (re : EdgeRand) (img : Img)
    {intensity : ℚ} (tilt : ℚ) (h : intensity < 1/100) :
    apply_page_edge env re img intensity tilt = img := by
  unfold apply_page_edge
  rw [if_pos h]

theorem apply_noise_ident (rn : NoiseRand) (img : Img) {intensity : ℚ}
    (h : intensity < 1/100) : apply_noise rn img intensity = img := by
  unfold apply_noise
  rw [if_pos h]

/-- Every channel value of a valid 8-bit raster lies in `[0, 255]`. -/
def InRange255 (img : Img) : Prop :=
  ∀ y x c, 0 ≤ img.px y x c ∧ img.px y x c ≤ 255

theorem inRange_paper_color (img : Img) : InRange255 (apply_paper_color img) := by
  intro y x c
  exact ⟨toU8_nonneg _, toU8_le _⟩

theorem inRange_black_and_white (img : Img) :
    InRange255 (apply_black_and_white img) := by
  intro y x c
  show (0 : ℚ) ≤ (if (otsuThreshold img : ℤ) < grayPx img y x then (255 : ℚ) else 0) ∧
    (if (otsuThreshold img : ℤ) < grayPx img y x then (255 : ℚ) else 0) ≤ 255
  split <;> norm_num

theorem inRange_warp (env : MathEnv) (rwp : WarpRand) (img : Img)
    (intensity : ℚ) (h : InRange255 img) :
    InRange255 (apply_warp env rwp img intensity) := by
  rw [apply_warp_eq]; exact h

theorem inRange_lighting (env : MathEnv) (rl : LightingRand) (img : Img)
    (intensity : ℚ) (h : InRange255 img) :
    InRange255 (apply_lighting env rl img intensity) := by
  unfold apply_lighting
  split
  · exact h
  · intro y x c
    exact ⟨toU8_nonneg _, toU8_le _⟩

theorem inRange_wrinkles (env : MathEnv) (rwr : WrinkleRand) (img : Img)
    (intensity : ℚ) (h : InRange255 img) :
    InRange255 (apply_wrinkles env rwr img intensity) := by
  unfold apply_wrinkles
  split
  · exact h
  · intro y x c
    exact ⟨toU8_nonneg _, toU8_le _⟩

theorem inRange_paper_texture (env : MathEnv) (rt : TexRand) (img : Img)
    (intensity : ℚ) (h : InRange255 img) :
    InRange255 (apply_paper_texture env rt img intensity) := by
  unfold apply_paper_texture
  split
  · exact h
  · intro y x c
    exact ⟨toU8_nonneg _, toU8_le _⟩

theorem inRange_shadows (env : MathEnv) (img : Img) (intensity tilt : ℚ)
    (h : InRange255 img) : InRange255 (apply_shadows env img intensity tilt) := by
  unfold apply_shadows
  split
  · exact h
  · intro y x c
    exact ⟨toU8_nonneg _, toU8_le _⟩

theorem inRange_page_edge (env : MathEnv) (re : EdgeRand) (img : Img)
    (intensity tilt : ℚ) (h : InRange255 img) :
    InRange255 (apply_page_edge env re img intensity tilt) := by
  unfold apply_page_edge
  split
  · exact h
  · dsimp only
    split
    · exact h
    · intro y x c
      exact ⟨toU8_nonneg _, toU8_le _⟩

theorem inRange_noise (rn : NoiseRand) (img : Img) (intensity : ℚ)
    (h : InRange255 img) : InRange255 (apply_noise rn img intensity) := by
  unfold apply_noise
  split
  · exact h
  · intro y x c
    exact ⟨toU8_nonneg _, toU8_le _⟩

/-- A concrete environment for witnesses: trivial external routines. -/
def env0 : MathEnv :=
  { sinq := fun _ => 0, sqrtq := fun _ => 0, piq := 0,
    lanczos := fun p _ _ _ _ => p,
    bilinear := fun p _ _ _ _ => p,
    gaussianBlur := fun _ f => f }

/-- A concrete randomness outcome for each stage, for witnesses. -/
def warpRand0 : WarpRand := ⟨0, 0, 0, 0, 0, 0, 0⟩

def lightingRand0 : LightingRand := ⟨1/2, 1/2⟩

def wrinkleRand0 : WrinkleRand :=
  ⟨fun _ => true, fun _ => 0, fun _ => 0, fun _ => 0, fun _ => 0,
   fun _ => 0, fun _ _ => 0⟩

def texRand0 : TexRand := ⟨fun _ _ => 0⟩

def edgeRand0 : EdgeRand :=
  ⟨1/2, fun _ _ => 0, fun _ _ => 0, fun _ _ => 0, fun _ _ => 0,
   150, fun _ => 0, fun _ _ _ => 0, [], []⟩

def noiseRand0 : NoiseRand := ⟨fun _ _ _ => 0⟩

def pipelineRand0 : PipelineRand :=
  ⟨warpRand0, lightingRand0, wrinkleRand0, texRand0, edgeRand0, noiseRand0⟩

/-- A concrete 4×4 mid-gray raster. -/
def img4 : Img := ⟨4, 4, fun _ _ _ => 128⟩

/-- A concrete 100×100 white raster. -/
def img100 : Img := ⟨100, 100, fun _ _ _ => 255⟩

/-- C1: for every stage with an intensity parameter and every input raster,
an intensity below the 0.01 epsilon threshold makes the stage a strict
identity transform (the orchestrator's `> 0.01` gates additionally skip such
stages altogether). -/
theorem stage_identity_below_epsilon (env : MathEnv) (rwp : WarpRand)
    (rl : LightingRand) (rwr : WrinkleRand) (rt : TexRand) (re : EdgeRand)
    (rn : NoiseRand) (img : Img) (intensity tilt : ℚ)
    (h : intensity < 1/100) :
    apply_warp env rwp img intensity = img ∧
    apply_lighting env rl img intensity = img ∧
    apply_wrinkles env rwr img intensity = img ∧
    apply_paper_texture env rt img intensity = img ∧
    apply_shadows env img intensity tilt = img ∧
    apply_page_edge env re img intensity tilt = img ∧
    apply_noise rn img intensity = img :=
  ⟨apply_warp_eq env rwp img intensity,
   apply_lighting_ident env rl img h,
   apply_wrinkles_ident env rwr img h,
   apply_paper_texture_ident env rt img h,
   apply_shadows_ident env img tilt h,
   apply_page_edge_ident env re img tilt h,
   apply_noise_ident rn img h⟩

theorem stage_identity_below_epsilon_witness :
    apply_warp env0 warpRand0 img4 0 = img4 ∧
    apply_lighting env0 lightingRand0 img4 0 = img4 ∧
    apply_wrinkles env0 wrinkleRand0 img4 0 = img4 ∧
    apply_paper_texture env0 texRand0 img4 0 = img4 ∧
    apply_shadows env0 img4 0 0 = img4 ∧
    apply_page_edge env0 edgeRand0 img4 0 0 = img4 ∧
    apply_noise noiseRand0 img4 0 = img4 :=
  stage_identity_below_epsilon env0 warpRand0 lightingRand0 wrinkleRand0
    texRand0 edgeRand0 noiseRand0 img4 0 0 (by norm_num)

/-- C2: for every stage, every valid (8-bit) input raster and every
configuration and randomness outcome, every channel value of the stage's
output raster lies in `[0, 255]`. -/
theorem stage_output_channel_bounds (env : MathEnv) (rwp : WarpRand)
    (rl : LightingRand) (rwr : WrinkleRand) (rt : TexRand) (re : EdgeRand)
    (rn : NoiseRand) (img : Img) (intensity tilt : ℚ)
    (h : InRange255 img) :
    InRange255 (apply_paper_color img) ∧
    InRange255 (apply_black_and_white img) ∧
    InRange255 (apply_warp env rwp img intensity) ∧
    InRange255 (apply_lighting env rl img intensity) ∧
    InRange255 (apply_wrinkles env rwr img intensity) ∧
    InRange255 (apply_paper_texture env rt img intensity) ∧
    InRange255 (apply_shadows env img intensity tilt) ∧
    InRange255 (apply_page_edge env re img intensity tilt) ∧
    InRange255 (apply_noise rn img intensity) :=
  ⟨inRange_paper_color img,
   inRange_black_and_white img,
   inRange_warp env rwp img intensity h,
   inRange_lighting env rl img intensity h,
   inRange_wrinkles env rwr img intensity h,
   inRange_paper_texture env rt img intensity h,
   inRange_shadows env img intensity tilt h,
   inRange_page_edge env re img intensity tilt h,
   inRange_noise rn img intensity h⟩

theorem stage_output_channel_bounds_witness :
    InRange255 img4 ∧
    (InRange255 (apply_paper_color img4) ∧
     InRange255 (apply_black_and_white img4) ∧
     InRange255 (apply_warp env0 warpRand0 img4 (1/2)) ∧
     InRange255 (apply_lighting env0 lightingRand0 img4 (1/2)) ∧
     InRange255 (apply_wrinkles env0 wrinkleRand0 img4 (1/2)) ∧
     InRange255 (apply_paper_texture env0 texRand0 img4 (1/2)) ∧
     InRange255 (apply_shadows env0 img4 (1/2) 0) ∧
     InRange255 (apply_page_edge env0 edgeRand0 img4 (1/2) 0) ∧
     InRange255 (apply_noise noiseRand0 img4 (1/2))) :=
  have h4 : InRange255 img4 := fun _ _ _ => by norm_num [img4]
  ⟨h4, stage_output_channel_bounds env0 warpRand0 lightingRand0 wrinkleRand0
    texRand0 edgeRand0 noiseRand0 img4 (1/2) 0 h4⟩

/-- C8: for every input raster and every warp intensity, with no
resampling/remap backend available (`HAS_OPENCV = False`) the warp stage
returns its input unchanged instead of failing. -/
theorem warp_identity_no_backend (env : MathEnv) (rwp : WarpRand)
    (img : Img) (intensity : ℚ) :
    apply_warp env rwp img intensity = img :=
  apply_warp_eq env rwp img intensity

/-- C10: the pipeline output is identical for configurations differing only
in the `yellowness` field — the parameter is never read by any stage. -/
theorem yellowness_has_no_effect (env : MathEnv) (r : PipelineRand)
    (img : Img) (config : EffectConfig) (y : ℚ) :
    apply_scan_effects env r img { config with yellowness := y } =
      apply_scan_effects env r img config := rfl

/-- The pipeline's stage order as the specification states it: tone (tint if
not monochrome, binarization if monochrome), then warp, lighting, wrinkles,
paper texture, shadows, page edge, and noise last, each effect stage gated
by its own intensity exceeding the epsilon threshold.  Stated from the
specification's words for comparison with the orchestrator. -/
def specStageOrder (env : MathEnv) (r : PipelineRand)
    (config : EffectConfig) : List (Img → Img) :=
  [ fun im => if config.black_and_white = false then apply_paper_color im else im,
    fun im => if config.black_and_white then apply_black_and_white im else im,
    fun im => if 1/100 < config.warp then
        apply_warp env r.warp im config.warp else im,
    fun im => if 1/100 < config.lighting then
        apply_lighting env r.lighting im config.lighting else im,
    fun im => if 1/100 < config.wrinkles then
        apply_wrinkles env r.wrinkles im config.wrinkles else im,
    fun im => if 1/100 < config.paper_texture then
        apply_paper_texture env r.tex im config.paper_texture else im,
    fun im => if 1/100 < config.shadows then
        apply_shadows env im config.shadows config.tilt_randomness else im,
    fun im => if 1/100 < config.page_edge then
        apply_page_edge env r.edge im config.page_edge config.tilt_randomness
      else im,
    fun im => if 1/100 < config.noise then
        apply_noise r.noise im config.noise else im ]

/-- C6: for every input and configuration, the stage chain the orchestrator
runs between the scaling steps is exactly the left fold of the fixed ordered
stage list — tone first, then warp, lighting, wrinkles, paper texture,
shadows, page edge, and noise last, each gated by its own intensity; no
other order is ever used. -/
theorem pipeline_fixed_stage_order (env : MathEnv) (r : PipelineRand)
    (config : EffectConfig) (img : Img) :
    applyStages env r config img =
      (specStageOrder env r config).foldl (fun im f => f im) img := rfl

/-- C7: the two tone paths are mutually exclusive — the tone step of the
orchestrator is binarization when `black_and_white` is set and the paper
tint otherwise — and the binarized output is two-valued (0 or 255) with all
three channels equal, hence has at most 2 distinct luminance levels. -/
theorem monochrome_exclusive_two_level (img : Img) (config : EffectConfig) :
    ((if config.black_and_white = false then apply_paper_color img else img) =
       (if config.black_and_white then img else apply_paper_color img) ∧
     (if config.black_and_white then
        apply_black_and_white
          (if config.black_and_white = false then apply_paper_color img else img)
      else
        (if config.black_and_white = false then apply_paper_color img else img)) =
       (if config.black_and_white then apply_black_and_white img
        else apply_paper_color img)) ∧
    (∀ y x c, (apply_black_and_white img).px y x c = 0 ∨
      (apply_black_and_white img).px y x c = 255) ∧
    (∀ y x c c', (apply_black_and_white img).px y x c =
      (apply_black_and_white img).px y x c') := by
  refine ⟨⟨?_, ?_⟩, ?_, ?_⟩
  · cases config.black_and_white <;> simp
  · cases config.black_and_white <;> simp
  · intro y x c
    show (if (otsuThreshold img : ℤ) < grayPx img y x then (255 : ℚ) else 0) = 0 ∨
      (if (otsuThreshold img : ℤ) < grayPx img y x then (255 : ℚ) else 0) = 255
    split
    · right; rfl
    · left; rfl
  · intro y x c c'
    rfl

/-- C9: in the monochrome tone stage, the chosen global binarization
threshold maximizes the between-class variance
`weightBackground · weightForeground · (meanBackground − meanForeground)²`
over all 256 luminance levels, and the image is thresholded at that value
(luminance above the threshold maps to 255, the rest to 0, on all
channels). -/
theorem otsu_threshold_maximizes_variance (img : Img) (i : Fin 256) :
    betweenVar (histogram img) (otsuTotal img) (otsuSumTotal img) i.val ≤
      betweenVar (histogram img) (otsuTotal img) (otsuSumTotal img)
        (otsuThreshold img) ∧
    ∀ y x c, (apply_black_and_white img).px y x c =
      if (otsuThreshold img : ℤ) < grayPx img y x then (255 : ℚ) else 0 := by
  constructor
  · exact otsuScan_argmax (histogram img) (otsuTotal img) (otsuSumTotal img)
      rfl i.val i.isLt
  · intro y x c
    rfl

/-- The downscale factor the orchestrator uses for an oversized input
(src/effects.py:51): `max_dim / max(width, height)` with `max_dim = 2200`. -/
def capScale (w h : ℕ) : ℚ := (((2200 : ℕ) : ℚ)) / (((max w h : ℕ)) : ℚ)

/-- The orchestrator's dimension arithmetic for one axis of an oversized
input: downscale to `int(dim · s)` (src/effects.py:52-53), later resize back
to `int(downscaled_dim / s)` (src/effects.py:95-97). -/
def capRoundTrip (orig : ℕ) (s : ℚ) : ℕ :=
  (pyint (((pyint ((orig : ℚ) * s)).toNat : ℚ) / s)).toNat

theorem pyint_toNat_cast (q : ℚ) (h : 0 ≤ q) :
    (((pyint q).toNat : ℕ) : ℚ) = ((⌊q⌋ : ℤ) : ℚ) := by
  unfold pyint
  rw [if_pos h]
  exact_mod_cast Int.toNat_of_nonneg (Int.floor_nonneg.mpr h)

theorem pyint_toNat_le (q : ℚ) (h : 0 ≤ q) : (((pyint q).toNat : ℕ) : ℚ) ≤ q := by
  rw [pyint_toNat_cast q h]
  exact Int.floor_le q

theorem pyint_toNat_gt (q : ℚ) (h : 0 ≤ q) : q < (((pyint q).toNat : ℕ) : ℚ) + 1 := by
  rw [pyint_toNat_cast q h]
  exact Int.lt_floor_add_one q

theorem scan_dims_oversized (env : MathEnv) (r : PipelineRand) (img : Img)
    (config : EffectConfig) (h : 2200 < max img.width img.height) :
    (apply_scan_effects env r img config).width =
      capRoundTrip img.width (capScale img.width img.height) ∧
    (apply_scan_effects env r img config).height =
      capRoundTrip img.height (capScale img.width img.height) := by
  have hM : (0 : ℚ) < ((max img.width img.height : ℕ) : ℚ) := by
    have h0 : (0 : ℕ) < max img.width img.height := by omega
    exact_mod_cast h0
  have hlt : capScale img.width img.height < 1 := by
    rw [capScale, div_lt_one hM]
    exact_mod_cast h
  have hs : (((2200 : ℕ) : ℚ)) / (((max img.width img.height : ℕ)) : ℚ) ≠ 1 :=
    ne_of_lt hlt
  unfold apply_scan_effects
  dsimp only
  rw [if_pos h, if_pos h, if_pos h, if_pos h, if_pos hs]
  exact ⟨rfl, rfl⟩

theorem capRoundTrip_bounds (orig M : ℕ) (hM : 0 < M) :
    capRoundTrip orig (((2200 : ℕ) : ℚ) / (M : ℚ)) ≤ orig ∧
    (orig : ℚ) <
      (capRoundTrip orig (((2200 : ℕ) : ℚ) / (M : ℚ)) : ℚ) + 1 + (M : ℚ) / 2200 := by
  unfold capRoundTrip
  have hMq : (0 : ℚ) < (M : ℚ) := by exact_mod_cast hM
  have hspos : (0 : ℚ) < ((2200 : ℕ) : ℚ) / (M : ℚ) := by
    apply div_pos _ hMq
    norm_num
  have h1 : (0 : ℚ) ≤ (orig : ℚ) * (((2200 : ℕ) : ℚ) / (M : ℚ)) := by positivity
  have hA_le := pyint_toNat_le _ h1
  have hA_gt := pyint_toNat_gt _ h1
  have h2 : (0 : ℚ) ≤
      (((pyint ((orig : ℚ) * (((2200 : ℕ) : ℚ) / (M : ℚ)))).toNat : ℕ) : ℚ) /
        (((2200 : ℕ) : ℚ) / (M : ℚ)) := by positivity
  have hB_le := pyint_toNat_le _ h2
  have hB_gt := pyint_toNat_gt _ h2
  have hinv : 1 / (((2200 : ℕ) : ℚ) / (M : ℚ)) = (M : ℚ) / 2200 := by
    rw [one_div_div]
    norm_num
  constructor
  · have hAs : (((pyint ((orig : ℚ) * (((2200 : ℕ) : ℚ) / (M : ℚ)))).toNat : ℕ) : ℚ) /
        (((2200 : ℕ) : ℚ) / (M : ℚ)) ≤ (orig : ℚ) := by
      rw [div_le_iff₀ hspos]
      exact hA_le
    exact_mod_cast le_trans hB_le hAs
  · have h3 : (orig : ℚ) <
        ((((pyint ((orig : ℚ) * (((2200 : ℕ) : ℚ) / (M : ℚ)))).toNat : ℕ) : ℚ) + 1) /
          (((2200 : ℕ) : ℚ) / (M : ℚ)) := by
      rw [lt_div_iff₀ hspos]
      exact hA_gt
    rw [add_div] at h3
    calc (orig : ℚ)
        < (((pyint ((orig : ℚ) * (((2200 : ℕ) : ℚ) / (M : ℚ)))).toNat : ℕ) : ℚ) /
            (((2200 : ℕ) : ℚ) / (M : ℚ)) + 1 / (((2200 : ℕ) : ℚ) / (M : ℚ)) := h3
      _ < (((pyint ((((pyint ((orig : ℚ) * (((2200 : ℕ) : ℚ) / (M : ℚ)))).toNat : ℕ) : ℚ) /
              (((2200 : ℕ) : ℚ) / (M : ℚ)))).toNat : ℕ) : ℚ) + 1 +
            1 / (((2200 : ℕ) : ℚ) / (M : ℚ)) := by
          have := hB_gt
          linarith
      _ = _ := by rw [hinv]

theorem dims_paper_color (img : Img) :
    (apply_paper_color img).width = img.width ∧
    (apply_paper_color img).height = img.height := ⟨rfl, rfl⟩

theorem dims_black_and_white (img : Img) :
    (apply_black_and_white img).width = img.width ∧
    (apply_black_and_white img).height = img.height := ⟨rfl, rfl⟩

theorem dims_warp (env : MathEnv) (rwp : WarpRand) (img : Img) (intensity : ℚ) :
    (apply_warp env rwp img intensity).width = img.width ∧
    (apply_warp env rwp img intensity).height = img.height := by
  rw [apply_warp_eq]
  exact ⟨rfl, rfl⟩

theorem dims_lighting (env : MathEnv) (rl : LightingRand) (img : Img)
    (intensity : ℚ) :
    (apply_lighting env rl img intensity).width = img.width ∧
    (apply_lighting env rl img intensity).height = img.height := by
  unfold apply_lighting
  split <;> exact ⟨rfl, rfl⟩

theorem dims_wrinkles (env : MathEnv) (rwr : WrinkleRand) (img : Img)
    (intensity : ℚ) :
    (apply_wrinkles env rwr img intensity).width = img.width ∧
    (apply_wrinkles env rwr img intensity).height = img.height := by
  unfold apply_wrinkles
  split <;> exact ⟨rfl, rfl⟩

theorem dims_paper_texture (env : MathEnv) (rt : TexRand) (img : Img)
    (intensity : ℚ) :
    (apply_paper_texture env rt img intensity).width = img.width ∧
    (apply_paper_texture env rt img intensity).height = img.height := by
  unfold apply_paper_texture
  split <;> exact ⟨rfl, rfl⟩

theorem dims_shadows (env : MathEnv) (img : Img) (intensity tilt : ℚ) :
    (apply_shadows env img intensity tilt).width = img.width ∧
    (apply_shadows env img intensity tilt).height = img.height := by
  unfold apply_shadows
  split <;> exact ⟨rfl, rfl⟩

theorem dims_noise (rn : NoiseRand) (img : Img) (intensity : ℚ) :
    (apply_noise rn img intensity).width = img.width ∧
    (apply_noise rn img intensity).height = img.height := by
  unfold apply_noise
  split <;> exact ⟨rfl, rfl⟩

theorem page_edge_dims_active (env : MathEnv) (re : EdgeRand) (img : Img)
    (intensity tilt : ℚ) (h1 : 1/100 ≤ intensity)
    (h2 : 5 ≤ pageEdgeBorderBase img.width img.height intensity) :
    (apply_page_edge env re img intensity tilt).width =
      img.width + (pageEdgeBorders re img.width img.height intensity tilt).2.2.1.toNat
        + (pageEdgeBorders re img.width img.height intensity tilt).2.2.2.toNat ∧
    (apply_page_edge env re img intensity tilt).height =
      img.height + (pageEdgeBorders re img.width img.height intensity tilt).1.toNat
        + (pageEdgeBorders re img.width img.height intensity tilt).2.1.toNat := by
  have hng : ¬ intensity < 1/100 := not_lt.mpr h1
  have hng2 : ¬ pageEdgeBorderBase img.width img.height intensity < 5 :=
    not_lt.mpr h2
  unfold apply_page_edge
  rw [if_neg hng]
  dsimp only
  rw [if_neg hng2]
  exact ⟨rfl, rfl⟩

theorem pageEdgeBorders_ge_five (re : EdgeRand) (w h : ℕ) (intensity tilt : ℚ) :
    5 ≤ (pageEdgeBorders re w h intensity tilt).1 ∧
    5 ≤ (pageEdgeBorders re w h intensity tilt).2.1 ∧
    5 ≤ (pageEdgeBorders re w h intensity tilt).2.2.1 ∧
    5 ≤ (pageEdgeBorders re w h intensity tilt).2.2.2 :=
  ⟨le_max_left 5 _, le_max_left 5 _, le_max_left 5 _, le_max_left 5 _⟩

/-- A concrete 2200×2200 raster (the downscaled working size of a 4400×4400
input). -/
def img2200 : Img := ⟨2200, 2200, fun _ _ _ => 200⟩

/-- A concrete oversized 4400×4400 raster. -/
def img4400 : Img := ⟨4400, 4400, fun _ _ _ => 200⟩

/-- A concrete configuration with the page-edge stage fully on and no tilt. -/
def cfgEdge : EffectConfig :=
  { page_edge := 1, tilt_randomness := 0, warp := 0, lighting := 0,
    wrinkles := 0, shadows := 0, noise := 0, paper_texture := 0 }

/-- A concrete configuration with the page-edge stage off. -/
def cfgNoEdge : EffectConfig :=
  { page_edge := 0, tilt_randomness := 0, warp := 0, lighting := 0,
    wrinkles := 0, shadows := 0, noise := 0, paper_texture := 0 }

/-- C3 (amended): every stage leaves the raster's dimensions unchanged
except page-edge compositing, which — whenever the pageEdge intensity is at
or above the epsilon threshold AND the computed base border
`int(min(width, height) · 0.08 · intensity)` reaches the minimum floor of
5 — strictly increases the width by `borderLeft + borderRight` and the
height by `borderTop + borderBottom`, each of the four borders at least 5.
(The claim as stated omits the base-border condition; the counterexample
shows the stage returns its input unchanged when the base border computes
below 5 even at intensity well above the threshold.) -/
theorem page_edge_dimension_contract (env : MathEnv) (rwp : WarpRand)
    (rl : LightingRand) (rwr : WrinkleRand) (rt : TexRand) (re : EdgeRand)
    (rn : NoiseRand) (img : Img) (intensity tilt : ℚ)
    (h1 : 1/100 ≤ intensity)
    (h2 : 5 ≤ pageEdgeBorderBase img.width img.height intensity) :
    (((apply_paper_color img).width = img.width ∧
      (apply_paper_color img).height = img.height) ∧
     ((apply_black_and_white img).width = img.width ∧
      (apply_black_and_white img).height = img.height) ∧
     ((apply_warp env rwp img intensity).width = img.width ∧
      (apply_warp env rwp img intensity).height = img.height) ∧
     ((apply_lighting env rl img intensity).width = img.width ∧
      (apply_lighting env rl img intensity).height = img.height) ∧
     ((apply_wrinkles env rwr img intensity).width = img.width ∧
      (apply_wrinkles env rwr img intensity).height = img.height) ∧
     ((apply_paper_texture env rt img intensity).width = img.width ∧
      (apply_paper_texture env rt img intensity).height = img.height) ∧
     ((apply_shadows env img intensity tilt).width = img.width ∧
      (apply_shadows env img intensity tilt).height = img.height) ∧
     ((apply_noise rn img intensity).width = img.width ∧
      (apply_noise rn img intensity).height = img.height)) ∧
    ((apply_page_edge env re img intensity tilt).width =
       img.width + (pageEdgeBorders re img.width img.height intensity tilt).2.2.1.toNat
         + (pageEdgeBorders re img.width img.height intensity tilt).2.2.2.toNat ∧
     (apply_page_edge env re img intensity tilt).height =
       img.height + (pageEdgeBorders re img.width img.height intensity tilt).1.toNat
         + (pageEdgeBorders re img.width img.height intensity tilt).2.1.toNat ∧
     (5 ≤ (pageEdgeBorders re img.width img.height intensity tilt).1 ∧
      5 ≤ (pageEdgeBorders re img.width img.height intensity tilt).2.1 ∧
      5 ≤ (pageEdgeBorders re img.width img.height intensity tilt).2.2.1 ∧
      5 ≤ (pageEdgeBorders re img.width img.height intensity tilt).2.2.2) ∧
     (img.width < (apply_page_edge env re img intensity tilt).width ∧
      img.height < (apply_page_edge env re img intensity tilt).height)) := by
  obtain ⟨hweq, hheq⟩ := page_edge_dims_active env re img intensity tilt h1 h2
  obtain ⟨hb1, hb2, hb3, hb4⟩ :=
    pageEdgeBorders_ge_five re img.width img.height intensity tilt
  refine ⟨⟨dims_paper_color img, dims_black_and_white img,
    dims_warp env rwp img intensity, dims_lighting env rl img intensity,
    dims_wrinkles env rwr img intensity, dims_paper_texture env rt img intensity,
    dims_shadows env img intensity tilt, dims_noise rn img intensity⟩,
    hweq, hheq, ⟨hb1, hb2, hb3, hb4⟩, ?_, ?_⟩
  · rw [hweq]
    omega
  · rw [hheq]
    omega

theorem page_edge_dimension_contract_witness :
    (1/100 : ℚ) ≤ 1 ∧
    5 ≤ pageEdgeBorderBase img2200.width img2200.height 1 ∧
    img2200.width < (apply_page_edge env0 edgeRand0 img2200 1 0).width ∧
    img2200.height < (apply_page_edge env0 edgeRand0 img2200 1 0).height :=
  have hb : 5 ≤ pageEdgeBorderBase img2200.width img2200.height 1 := by
    norm_num [pageEdgeBorderBase, pyint, img2200]
  ⟨by norm_num, hb,
   (page_edge_dimension_contract env0 warpRand0 lightingRand0 wrinkleRand0
     texRand0 edgeRand0 noiseRand0 img2200 1 0 (by norm_num) hb).2.2.2.2⟩

/-- C3 (counterexample): at intensity 1/2 (well above the 0.01 threshold) on
a 100×100 raster, the base border computes to `int(100·0.08·0.5) = 4 < 5`
and the page-edge stage returns its input unchanged — it does not strictly
increase the dimensions as the claim states. -/
theorem page_edge_dimension_contract_cex :
    (1/100 : ℚ) ≤ 1/2 ∧
    (apply_page_edge env0 edgeRand0 img100 (1/2) 0).width = img100.width ∧
    (apply_page_edge env0 edgeRand0 img100 (1/2) 0).height = img100.height := by
  have hb : pageEdgeBorderBase img100.width img100.height (1/2) = 4 := by
    norm_num [pageEdgeBorderBase, pyint, img100]
  have heq : apply_page_edge env0 edgeRand0 img100 (1/2) 0 = img100 := by
    unfold apply_page_edge
    rw [if_neg (by norm_num)]
    dsimp only
    rw [hb]
    norm_num
  rw [heq]
  exact ⟨by norm_num, rfl, rfl⟩

/-- C4: for every input whose larger dimension exceeds the 2200-unit cap and
every configuration and randomness outcome, the pipeline downscales before
the stages and upscales after them, and each final output dimension equals
the orchestrator's round-trip `int(int(dim·s)/s)` of the original pre-cap
dimension — at most the original, and below it by strictly less than one
downscale-grid unit `1/s = max(width, height)/2200` plus one (i.e. the
original dimensions to within the rounding the two `int` casts introduce). -/
theorem downscale_upscale_roundtrip (env : MathEnv) (r : PipelineRand)
    (img : Img) (config : EffectConfig)
    (h : 2200 < max img.width img.height) :
    ((apply_scan_effects env r img config).width =
       capRoundTrip img.width (capScale img.width img.height) ∧
     (apply_scan_effects env r img config).height =
       capRoundTrip img.height (capScale img.width img.height)) ∧
    ((apply_scan_effects env r img config).width ≤ img.width ∧
     (img.width : ℚ) < ((apply_scan_effects env r img config).width : ℚ) + 1 +
       ((max img.width img.height : ℕ) : ℚ) / 2200) ∧
    ((apply_scan_effects env r img config).height ≤ img.height ∧
     (img.height : ℚ) < ((apply_scan_effects env r img config).height : ℚ) + 1 +
       ((max img.width img.height : ℕ) : ℚ) / 2200) := by
  obtain ⟨hw, hh⟩ := scan_dims_oversized env r img config h
  have hM : 0 < max img.width img.height := by omega
  have h1 := capRoundTrip_bounds img.width (max img.width img.height) hM
  have h2 := capRoundTrip_bounds img.height (max img.width img.height) hM
  rw [hw, hh]
  exact ⟨⟨rfl, rfl⟩, h1, h2⟩

theorem downscale_upscale_roundtrip_witness :
    2200 < max img4400.width img4400.height ∧
    ((apply_scan_effects env0 pipelineRand0 img4400 cfgEdge).width ≤ img4400.width ∧
     (apply_scan_effects env0 pipelineRand0 img4400 cfgEdge).height ≤ img4400.height) :=
  have h : 2200 < max img4400.width img4400.height := by norm_num [img4400]
  ⟨h, (downscale_upscale_roundtrip env0 pipelineRand0 img4400 cfgEdge h).2.1.1,
      (downscale_upscale_roundtrip env0 pipelineRand0 img4400 cfgEdge h).2.2.1⟩

/-- C5 (amended): when the orchestrator downscales an oversized input, the
page-edge border is resampled together with the content by the final
upscale, whose target size is computed from the pre-border downscaled
dimensions — so the final output dimensions equal the pre-cap round-trip
dimensions for every configuration, environment and randomness outcome, and
are NOT enlarged by the border factor the claim describes. -/
theorem final_dims_config_independent (env1 env2 : MathEnv)
    (r1 r2 : PipelineRand) (img : Img) (cfg1 cfg2 : EffectConfig)
    (h : 2200 < max img.width img.height) :
    (apply_scan_effects env1 r1 img cfg1).width =
      (apply_scan_effects env2 r2 img cfg2).width ∧
    (apply_scan_effects env1 r1 img cfg1).height =
      (apply_scan_effects env2 r2 img cfg2).height := by
  obtain ⟨h1w, h1h⟩ := scan_dims_oversized env1 r1 img cfg1 h
  obtain ⟨h2w, h2h⟩ := scan_dims_oversized env2 r2 img cfg2 h
  exact ⟨h1w.trans h2w.symm, h1h.trans h2h.symm⟩

theorem final_dims_config_independent_witness :
    2200 < max img4400.width img4400.height ∧
    (apply_scan_effects env0 pipelineRand0 img4400 cfgEdge).width =
      (apply_scan_effects env0 pipelineRand0 img4400 cfgNoEdge).width ∧
    (apply_scan_effects env0 pipelineRand0 img4400 cfgEdge).height =
      (apply_scan_effects env0 pipelineRand0 img4400 cfgNoEdge).height :=
  have h : 2200 < max img4400.width img4400.height := by norm_num [img4400]
  ⟨h, final_dims_config_independent env0 env0 pipelineRand0 pipelineRand0
    img4400 cfgEdge cfgNoEdge h⟩

/-- C5 (counterexample): a 4400×4400 input is downscaled to 2200×2200; the
page-edge stage at intensity 1 and zero tilt enlarges the working buffer to
2552×2552 (borders of 176 on each side), so the claim predicts final
dimensions `4400 × (2552/2200) = 5104`; the pipeline actually resizes back
to `int(2200 / 0.5) = 4400` — the border does not enlarge the output
dimensions. -/
theorem border_enlargement_cex :
    (apply_page_edge env0 edgeRand0 img2200 1 0).width = 2552 ∧
    (apply_scan_effects env0 pipelineRand0 img4400 cfgEdge).width = 4400 ∧
    (4400 : ℚ) * ((2552 : ℚ) / 2200) = 5104 ∧
    ((apply_scan_effects env0 pipelineRand0 img4400 cfgEdge).width : ℚ) ≠ 5104 := by
  have hb : pageEdgeBorderBase img2200.width img2200.height 1 = 176 := by
    norm_num [pageEdgeBorderBase, pyint, img2200]
  have hbs : pageEdgeBorders edgeRand0 img2200.width img2200.height 1 0 =
      (176, 176, 176, 176) := by
    unfold pageEdgeBorders
    rw [hb]
    norm_num [edgeRand0, pyint]
  have hwidth : (apply_page_edge env0 edgeRand0 img2200 1 0).width = 2552 := by
    obtain ⟨hw, -⟩ := page_edge_dims_active env0 edgeRand0 img2200 1 0
      (by norm_num) (by rw [hb]; norm_num)
    rw [hw, hbs]
    show 2200 + Int.toNat 176 + Int.toNat 176 = 2552
    omega
  have hscan : (apply_scan_effects env0 pipelineRand0 img4400 cfgEdge).width = 4400 := by
    obtain ⟨hw, -⟩ := scan_dims_oversized env0 pipelineRand0 img4400 cfgEdge
      (by norm_num [img4400])
    rw [hw]
    show capRoundTrip 4400 (capScale 4400 4400) = 4400
    have e1 : capScale 4400 4400 = 1/2 := by norm_num [capScale]
    rw [capRoundTrip, e1]
    have e2 : pyint (((4400 : ℕ) : ℚ) * (1/2)) = 2200 := by norm_num [pyint]
    rw [e2]
    have e3 : ((2200 : ℤ).toNat : ℕ) = 2200 := rfl
    rw [e3]
    have e4 : pyint (((2200 : ℕ) : ℚ) / (1/2)) = 4400 := by norm_num [pyint]
    rw [e4]
    rfl
  refine ⟨hwidth, hscan, by norm_num, ?_⟩
  rw [hscan]
  norm_num
